import Mathlib

/-!
Verification of the Youtu-Tip GUI-agent core against its design spec.

The definitions below are shallow embeddings of the Python sources:
  * python/app/gui_agent/qwen_response_parser.py  (coordinate scaling, tool-call compiler)
  * python/app/gui_agent/qwen_agent.py            (step budget, outbound message trimming)
  * python/app/gui_agent/qwen_skills.py           (skill lookup and replies)
  * python/app/gui_agent/skills/repository.py     (skill repository CRUD)
  * python/app/services/gui_agent.py              (run lifecycle manager)

Python strings are modelled as Lean `String` (lists of characters); Python
`int` and `float` values that feed arithmetic are modelled exactly with
`Int`/`Rat` (exact arithmetic stands in for IEEE floats); Python exceptions
are modelled with `Except`/`Option`.
-/

namespace YoutuTip

/-! ## Python string primitives -/

/-- Whitespace class used by Python `str.strip()` / regex `\s` (ASCII part). -/
def pyIsSpace (c : Char) : Bool :=
  c = ' ' || c = '\t' || c = '\n' || c = '\r' || c = '\x0b' || c = '\x0c'

/-- Drop characters satisfying `p` from both ends of a character list. -/
def stripPred (p : Char → Bool) (cs : List Char) : List Char :=
  ((cs.dropWhile p).reverse.dropWhile p).reverse

/-- Python `str.strip()` (no arguments): trim surrounding whitespace. -/
def pyStrip (s : String) : String := ⟨stripPred pyIsSpace s.data⟩

/-- Python `str.strip("\n")`: trim surrounding newline characters only. -/
def pyStripNl (s : String) : String := ⟨stripPred (fun c => c = '\n') s.data⟩

/-- Python `str.lower()` (ASCII case folding suffices for the action names). -/
def pyLower (s : String) : String := ⟨s.data.map Char.toLower⟩

/-- Python `str.startswith(t)`. -/
def pyStartsWith (s t : String) : Bool := t.data.isPrefixOf s.data

/-- Python `str.endswith(t)`. -/
def pyEndsWith (s t : String) : Bool := t.data.reverse.isPrefixOf s.data.reverse

/-- Split at the first occurrence of `sep` (nonempty): returns the text
before and after it, mirroring Python `s.split(sep, 1)` when found. -/
def splitFirstAux (sep : List Char) : List Char → Option (List Char × List Char)
  | [] => if sep.isEmpty then some ([], []) else none
  | c :: rest =>
    if sep.isPrefixOf (c :: rest) then some ([], (c :: rest).drop sep.length)
    else (splitFirstAux sep rest).map (fun pr => (c :: pr.1, pr.2))

/-- String version of `splitFirstAux`. -/
def strSplitFirst (s sep : String) : Option (String × String) :=
  (splitFirstAux sep.data s.data).map (fun pr => (⟨pr.1⟩, ⟨pr.2⟩))

/-- Python `sep in s` membership test (for nonempty `sep`). -/
def strContains (s sep : String) : Bool := (strSplitFirst s sep).isSome

/-- Replace every (non-overlapping, left-to-right) occurrence of `pat`,
mirroring Python `str.replace`; `fuel` bounds recursion. -/
def replaceAux (pat rep : List Char) : Nat → List Char → List Char
  | 0, cs => cs
  | fuel + 1, cs =>
    match splitFirstAux pat cs with
    | none => cs
    | some (pre, post) => pre ++ rep ++ replaceAux pat rep fuel post

/-- Python `str.replace(pat, rep)` for nonempty `pat`. -/
def strReplace (s pat rep : String) : String :=
  ⟨replaceAux pat.data rep.data (s.data.length + 1) s.data⟩

/-- Python `str.split("\n")`. -/
def splitLinesAux : List Char → List Char → List String
  | [], acc => [⟨acc.reverse⟩]
  | c :: rest, acc =>
    if c = '\n' then ⟨acc.reverse⟩ :: splitLinesAux rest []
    else splitLinesAux rest (c :: acc)

/-- Python `str.split("\n")` on a string. -/
def splitLines (s : String) : List String := splitLinesAux s.data []

/-- Python `"\n".join(parts)`. -/
def joinNl : List String → String
  | [] => ""
  | [s] => s
  | s :: rest => s ++ "\n" ++ joinNl rest

/-- Python `s[n:]`. -/
def strDrop (s : String) (n : Nat) : String := ⟨s.data.drop n⟩

/-- Python `s[:-n]` for `n ≤ len s`. -/
def strDropRight (s : String) (n : Nat) : String := ⟨s.data.take (s.data.length - n)⟩

/-- Python `int(q)` on a real number: truncation toward zero. -/
def pyInt (q : ℚ) : ℤ := if 0 ≤ q then q.floor else q.ceil

/-- A single-quote character as a string (ASCII 39). -/
def sq : String := ⟨[Char.ofNat 39]⟩

/-- Wrap a string in single quotes, as the key-list f-string does. -/
def q1 (s : String) : String := sq ++ s ++ sq

/-! ## JSON values (the result type of Python `json.loads`)

Python distinguishes `int` and `float` results of JSON parsing (they print
differently inside f-strings), so the model keeps two numeric constructors.
-/

inductive JVal where
  | jnull
  | jbool (b : Bool)
  | jint (n : ℤ)
  | jfloat (q : ℚ)
  | jstr (s : String)
  | jarr (elems : List JVal)
  | jobj (fields : List (String × JVal))

/-- Python dict lookup on JSON-object fields (duplicate keys: last wins,
as in `json.loads`). -/
def getField (fields : List (String × JVal)) (key : String) : Option JVal :=
  ((fields.reverse).find? (fun p => p.1 = key)).map (fun p => p.2)

/-- Python `key in dict`. -/
def hasField (fields : List (String × JVal)) (key : String) : Bool :=
  fields.any (fun p => p.1 = key)

/-! ### JSON text parser (model of `json.loads`) -/

/-- JSON whitespace. -/
def jsonWs (c : Char) : Bool := c = ' ' || c = '\t' || c = '\n' || c = '\r'

/-- Skip JSON whitespace. -/
def skipWs (cs : List Char) : List Char := cs.dropWhile jsonWs

/-- Hex digit value. -/
def hexVal (c : Char) : Option Nat :=
  if '0' ≤ c ∧ c ≤ '9' then some (c.toNat - '0'.toNat)
  else if 'a' ≤ c ∧ c ≤ 'f' then some (c.toNat - 'a'.toNat + 10)
  else if 'A' ≤ c ∧ c ≤ 'F' then some (c.toNat - 'A'.toNat + 10)
  else none

/-- Parse the body of a JSON string literal (after the opening quote). -/
def parseJStrAux : List Char → List Char → Option (List Char × List Char)
  | _, [] => none
  | acc, c :: rest =>
    if c = '"' then some (acc.reverse, rest)
    else if c = '\\' then
      match rest with
      | [] => none
      | e :: rest2 =>
        if e = '"' then parseJStrAux ('"' :: acc) rest2
        else if e = '\\' then parseJStrAux ('\\' :: acc) rest2
        else if e = '/' then parseJStrAux ('/' :: acc) rest2
        else if e = 'b' then parseJStrAux (Char.ofNat 8 :: acc) rest2
        else if e = 'f' then parseJStrAux (Char.ofNat 12 :: acc) rest2
        else if e = 'n' then parseJStrAux ('\n' :: acc) rest2
        else if e = 'r' then parseJStrAux ('\r' :: acc) rest2
        else if e = 't' then parseJStrAux ('\t' :: acc) rest2
        else if e = 'u' then
          match rest2 with
          | h1 :: h2 :: h3 :: h4 :: rest3 =>
            match hexVal h1, hexVal h2, hexVal h3, hexVal h4 with
            | some a, some b, some c1, some d =>
              parseJStrAux (Char.ofNat (((a * 16 + b) * 16 + c1) * 16 + d) :: acc) rest3
            | _, _, _, _ => none
          | _ => none
        else none
    else if c.toNat < 32 then none
    else parseJStrAux (c :: acc) rest

/-- Span of decimal digits. -/
def spanDigits (cs : List Char) : List Char × List Char :=
  (cs.takeWhile Char.isDigit, cs.dropWhile Char.isDigit)

/-- Natural number denoted by a digit list. -/
def digitsToNat (ds : List Char) : Nat :=
  ds.foldl (fun acc c => acc * 10 + (c.toNat - '0'.toNat)) 0

/-- Parse a JSON number (returns `jint` when it has no fraction/exponent,
`jfloat` otherwise, like Python). -/
def parseJNum (cs : List Char) : Option (JVal × List Char) :=
  let (neg, cs1) := match cs with
    | '-' :: rest => (true, rest)
    | _ => (false, cs)
  match cs1 with
  | [] => none
  | c :: _ =>
    if ¬ c.isDigit then none
    else
      let (intDs, cs2) := spanDigits cs1
      -- JSON forbids leading zeros on multi-digit integer parts.
      if intDs.length > 1 ∧ intDs.head? = some '0' then none
      else
        let i : ℚ := (digitsToNat intDs : ℚ)
        let (fracDs, cs3) := match cs2 with
          | '.' :: rest =>
            let (ds, r) := spanDigits rest
            (some ds, r)
          | _ => (none, cs2)
        match fracDs with
        | some [] => none
        | _ =>
          let expPart : Option (List Char) := match cs3 with
            | 'e' :: rest => some rest
            | 'E' :: rest => some rest
            | _ => none
          match expPart with
          | some rest =>
            let (esign, rest2) := match rest with
              | '+' :: r => ((1 : ℤ), r)
              | '-' :: r => ((-1 : ℤ), r)
              | _ => ((1 : ℤ), rest)
            let (expDs, cs5) := spanDigits rest2
            if expDs.isEmpty then none
            else
              let frac : ℚ := match fracDs with
                | some ds => (digitsToNat ds : ℚ) / ((10 : ℚ) ^ ds.length)
                | none => 0
              let mag : ℚ := (i + frac) * (10 : ℚ) ^ (esign * (digitsToNat expDs : ℤ))
              some (.jfloat (if neg then -mag else mag), cs5)
          | none =>
            match fracDs with
            | some ds =>
              let mag : ℚ := i + (digitsToNat ds : ℚ) / ((10 : ℚ) ^ ds.length)
              some (.jfloat (if neg then -mag else mag), cs3)
            | none =>
              let n : ℤ := (digitsToNat intDs : ℤ)
              some (.jint (if neg then -n else n), cs3)

mutual

/-- Fueled recursive-descent JSON value parser. -/
def parseJVal : Nat → List Char → Option (JVal × List Char)
  | 0, _ => none
  | fuel + 1, cs =>
    match skipWs cs with
    | [] => none
    | c :: rest =>
      if c = '{' then
        match skipWs rest with
        | '}' :: rest2 => some (.jobj [], rest2)
        | _ => parseJObjItems fuel (skipWs rest) []
      else if c = '[' then
        match skipWs rest with
        | ']' :: rest2 => some (.jarr [], rest2)
        | _ => parseJArrItems fuel (skipWs rest) []
      else if c = '"' then
        (parseJStrAux [] rest).map (fun pr => (.jstr ⟨pr.1⟩, pr.2))
      else if c = 't' then
        match rest with
        | 'r' :: 'u' :: 'e' :: rest2 => some (.jbool true, rest2)
        | _ => none
      else if c = 'f' then
        match rest with
        | 'a' :: 'l' :: 's' :: 'e' :: rest2 => some (.jbool false, rest2)
        | _ => none
      else if c = 'n' then
        match rest with
        | 'u' :: 'l' :: 'l' :: rest2 => some (.jnull, rest2)
        | _ => none
      else parseJNum (c :: rest)

/-- Parse `"key": value` members of an object, starting at a member. -/
def parseJObjItems : Nat → List Char → List (String × JVal) → Option (JVal × List Char)
  | 0, _, _ => none
  | fuel + 1, cs, acc =>
    match skipWs cs with
    | '"' :: rest =>
      match parseJStrAux [] rest with
      | none => none
      | some (key, rest2) =>
        match skipWs rest2 with
        | ':' :: rest3 =>
          match parseJVal fuel rest3 with
          | none => none
          | some (v, rest4) =>
            match skipWs rest4 with
            | ',' :: rest5 => parseJObjItems fuel rest5 (acc ++ [(⟨key⟩, v)])
            | '}' :: rest5 => some (.jobj (acc ++ [(⟨key⟩, v)]), rest5)
            | _ => none
        | _ => none
    | _ => none

/-- Parse elements of an array, starting at an element. -/
def parseJArrItems : Nat → List Char → List JVal → Option (JVal × List Char)
  | 0, _, _ => none
  | fuel + 1, cs, acc =>
    match parseJVal fuel cs with
    | none => none
    | some (v, rest) =>
      match skipWs rest with
      | ',' :: rest2 => parseJArrItems fuel rest2 (acc ++ [v])
      | ']' :: rest2 => some (.jarr (acc ++ [v]), rest2)
      | _ => none

end

/-- Model of Python `json.loads`: parse the whole string, rejecting
trailing garbage. -/
def jsonParse (s : String) : Option JVal :=
  match parseJVal (s.data.length + 1) s.data with
  | some (v, rest) => if skipWs rest = [] then some v else none
  | none => none

/-! ### `_coerce_json` (qwen_response_parser.py lines 69-84) -/

/-- Python `str.rstrip()` on a character list. -/
def rstripWs (cs : List Char) : List Char := (cs.reverse.dropWhile pyIsSpace).reverse

/-- The `while closing > opening and stripped.endswith() ...` loop that trims
duplicated closing braces; `opening` is counted once before the loop, the
closing count is re-counted each iteration, exactly as in the source. -/
def trimBracesLoop : Nat → Nat → List Char → List Char
  | 0, _, cs => cs
  | fuel + 1, opening, cs =>
    if cs.count (Char.ofNat 125) > opening ∧ cs.reverse.head? = some (Char.ofNat 125) then
      trimBracesLoop fuel opening (rstripWs cs.dropLast)
    else cs

/-- Model of `_coerce_json`: tolerant JSON reading that strips whitespace
and progressively trims trailing duplicated closing braces. -/
def coerce_json (text : String) : Option JVal :=
  let stripped := stripPred pyIsSpace text.data
  match jsonParse ⟨stripped⟩ with
  | some v => some v
  | none =>
    let opening := stripped.count (Char.ofNat 123)
    jsonParse ⟨trimBracesLoop (stripped.length + 1) opening stripped⟩

/-! ### Value rendering (Python `str()` / f-strings / `json.dumps`) -/

/-- Join strings with a comma-space separator, like `", ".join(...)`. -/
def joinComma : List String → String
  | [] => ""
  | [s] => s
  | s :: rest => s ++ ", " ++ joinComma rest

/-- Decimal digits of the fractional part of a nonnegative rational
(bounded; stands in for the shortest-roundtrip float repr, which agrees on
the short terminating decimals that occur here). -/
def fracDigitStr : Nat → ℚ → String
  | 0, _ => ""
  | fuel + 1, q =>
    if q = 0 then ""
    else
      let q10 := q * 10
      toString q10.floor ++ fracDigitStr fuel (q10 - (q10.floor : ℚ))

/-- Python `str()` of a nonnegative float value. -/
def pyFloatReprNN (q : ℚ) : String :=
  let ip := q.floor.toNat
  let ds := fracDigitStr 17 (q - (ip : ℚ))
  toString ip ++ "." ++ (if ds = "" then "0" else ds)

/-- Python `str()` of a float value. -/
def pyFloatRepr (q : ℚ) : String :=
  if q < 0 then "-" ++ pyFloatReprNN (-q) else pyFloatReprNN q

/-- An opening curly brace as a string (ASCII 123). -/
def lcurl : String := ⟨[Char.ofNat 123]⟩

/-- A closing curly brace as a string (ASCII 125). -/
def rcurl : String := ⟨[Char.ofNat 125]⟩

mutual

/-- Python `str(v)` / f-string rendering of a JSON-decoded value (container
rendering is an adequate approximation: such values never match any
supported action name and the containers never occur in the claims). -/
def jvalStr : Nat → JVal → String
  | _, .jnull => "None"
  | _, .jbool true => "True"
  | _, .jbool false => "False"
  | _, .jint n => toString n
  | _, .jfloat q => pyFloatRepr q
  | _, .jstr s => s
  | 0, _ => ""
  | fuel + 1, .jarr xs => "[" ++ joinComma (xs.map (jvalRepr fuel)) ++ "]"
  | fuel + 1, .jobj fs =>
    lcurl ++ joinComma (fs.map (fun p => q1 p.1 ++ ": " ++ jvalRepr fuel p.2)) ++ rcurl

/-- Python `repr(v)` rendering (strings quoted), used inside containers. -/
def jvalRepr : Nat → JVal → String
  | _, .jnull => "None"
  | _, .jbool true => "True"
  | _, .jbool false => "False"
  | _, .jint n => toString n
  | _, .jfloat q => pyFloatRepr q
  | _, .jstr s => q1 s
  | 0, _ => ""
  | fuel + 1, .jarr xs => "[" ++ joinComma (xs.map (jvalRepr fuel)) ++ "]"
  | fuel + 1, .jobj fs =>
    lcurl ++ joinComma (fs.map (fun p => q1 p.1 ++ ": " ++ jvalRepr fuel p.2)) ++ rcurl

end

/-- f-string rendering (Python `str`) of a decoded JSON value. -/
def fstrJ (v : JVal) : String := jvalStr 100 v

/-- Lowercase hex digit. -/
def hexDigit (n : Nat) : String :=
  ⟨[if n < 10 then Char.ofNat ('0'.toNat + n) else Char.ofNat ('a'.toNat + n - 10)]⟩

/-- One character of `json.dumps` string escaping (`ensure_ascii=False`). -/
def jsonEscChar (c : Char) : String :=
  if c = '"' then "\\\""
  else if c = '\\' then "\\\\"
  else if c = '\n' then "\\n"
  else if c = '\r' then "\\r"
  else if c = '\t' then "\\t"
  else if c.toNat = 8 then "\\b"
  else if c.toNat = 12 then "\\f"
  else if c.toNat < 32 then "\\u00" ++ hexDigit (c.toNat / 16) ++ hexDigit (c.toNat % 16)
  else ⟨[c]⟩

/-- Model of `json.dumps(s, ensure_ascii=False)` on a string. -/
def jsonDumpStr (s : String) : String :=
  "\"" ++ String.join (s.data.map jsonEscChar) ++ "\""

/-! ### Coordinate adjustment (qwen_response_parser.py lines 49-67) -/

/-- The keyword configuration given to `parse_response`; the four dimensions
are Python `Optional[int]` values (`none` models `None`). -/
structure ParserCfg where
  coordinate_type : String
  original_width : Option Nat
  original_height : Option Nat
  processed_width : Option Nat
  processed_height : Option Nat

/-- Model of the nested `adjust_coordinates` helper. Python truthiness of
`original_width and original_height` means: both present and nonzero. -/
def adjust_coordinates (cfg : ParserCfg) (x y : ℚ) : ℤ × ℤ :=
  match cfg.original_width, cfg.original_height with
  | some w, some h =>
    if w = 0 ∨ h = 0 then (pyInt x, pyInt y)
    else if cfg.coordinate_type = "absolute" then
      match cfg.processed_width, cfg.processed_height with
      | some wp, some hp =>
        if wp = 0 ∨ hp = 0 then (pyInt x, pyInt y)
        else (pyInt (x * ((w : ℚ) / (wp : ℚ))), pyInt (y * ((h : ℚ) / (hp : ℚ))))
      | _, _ => (pyInt x, pyInt y)
    else
      let base : ℚ := if cfg.coordinate_type = "relative" then 1000 else 999
      (pyInt (x * ((w : ℚ) / base)), pyInt (y * ((h : ℚ) / base)))
  | _, _ => (pyInt x, pyInt y)

/-! ### Tool-call dispatch (qwen_response_parser.py lines 86-223) -/

/-- Numeric value of a decoded JSON number. -/
def numOfJ : JVal → Option ℚ
  | .jint n => some (n : ℚ)
  | .jfloat q => some q
  | _ => none

/-- Model of `x, y = args["coordinate"]` followed by numeric use of `x, y`.
Payloads that are not two-element numeric arrays are modelled as the
uncaught Python `TypeError`/`ValueError` they would (in essence) raise. -/
def coordPair (v : JVal) : Except String (ℚ × ℚ) :=
  match v with
  | .jarr [a, b] =>
    match numOfJ a, numOfJ b with
    | some x, some y => .ok (x, y)
    | _, _ => .error "TypeError: non-numeric coordinate"
  | _ => .error "ValueError: cannot unpack coordinate"

/-- Lower-cased, stripped, alias-resolved action name (lines 100-111).
A JSON `null` is Python `None`, for which the name stays empty. -/
def resolved_action (args : List (String × JVal)) : String :=
  let action0 := match getField args "action" with
    | none => ""
    | some .jnull => ""
    | some (.jstr s) => pyLower (pyStrip s)
    | some v => pyLower (pyStrip (fstrJ v))
  if action0 = "click" then "left_click" else action0

/-- Render an adjusted coordinate pair as the command f-strings do:
first coordinate, comma, space, second coordinate. -/
def fmtXY (adj : ℤ × ℤ) : String := toString adj.1 ++ ", " ++ toString adj.2

/-- One cleaning pass over a string key (lines 169-181). -/
def cleanKeyStr (k0 : String) : String :=
  let k1 := if pyStartsWith k0 "keys=[" then strDrop k0 6 else k0
  let k2 := if pyEndsWith k1 "]" then strDropRight k1 1 else k1
  let k3 :=
    if pyStartsWith k2 ("[" ++ sq) ∨ pyStartsWith k2 "[\"" then
      (if k2.data.length > 2 then strDrop k2 2 else k2)
    else k2
  let k4 :=
    if pyEndsWith k3 (sq ++ "]") ∨ pyEndsWith k3 "\"]" then
      (if k3.data.length > 2 then strDropRight k3 2 else k3)
    else k3
  let k5 := pyStrip k4
  if pyLower k5 = "ctrl" ∨ pyLower k5 = "control" then "command" else k5

/-- Clean a single list element (only string elements are normalised). -/
def cleanKeyItem : JVal → JVal
  | .jstr s => .jstr (cleanKeyStr s)
  | other => other

/-- The iterable of keys the `key` branch joins over: lists are cleaned,
strings iterate characters, dicts iterate their keys; other values raise
`TypeError` (not iterable). -/
def keysList : JVal → Except String (List JVal)
  | .jarr ks => .ok (ks.map cleanKeyItem)
  | .jstr s => .ok (s.data.map (fun c => JVal.jstr ⟨[c]⟩))
  | .jobj fs => .ok (fs.map (fun p => JVal.jstr p.1))
  | _ => .error "TypeError: keys not iterable"

/-- Model of the action dispatch inside `process_tool_call`: maps the
resolved action name and argument dict to the emitted pyautogui commands.
`Except.error` models an uncaught Python exception. -/
def dispatch (cfg : ParserCfg) (args : List (String × JVal)) : Except String (List String) :=
  let action := resolved_action args
  if action = "left_click" then
    match getField args "coordinate" with
    | some v =>
      (coordPair v).map (fun p =>
        ["pyautogui.click(" ++ fmtXY (adjust_coordinates cfg p.1 p.2) ++ ")"])
    | none => .ok ["pyautogui.click()"]
  else if action = "right_click" then
    match getField args "coordinate" with
    | some v =>
      (coordPair v).map (fun p =>
        ["pyautogui.rightClick(" ++ fmtXY (adjust_coordinates cfg p.1 p.2) ++ ")"])
    | none => .ok ["pyautogui.rightClick()"]
  else if action = "middle_click" then
    match getField args "coordinate" with
    | some v =>
      (coordPair v).map (fun p =>
        ["pyautogui.middleClick(" ++ fmtXY (adjust_coordinates cfg p.1 p.2) ++ ")"])
    | none => .ok ["pyautogui.middleClick()"]
  else if action = "double_click" then
    match getField args "coordinate" with
    | some v =>
      (coordPair v).map (fun p =>
        ["pyautogui.doubleClick(" ++ fmtXY (adjust_coordinates cfg p.1 p.2) ++ ")"])
    | none => .ok ["pyautogui.doubleClick()"]
  else if action = "type" then
    let raw := match getField args "text" with
      | none => JVal.jstr ""
      | some v => v
    let safe := jsonDumpStr (fstrJ raw)
    .ok ["import pyperclip; text_to_type = " ++ safe ++
         "; pyperclip.copy(text_to_type); pyautogui.hotkey(" ++
         q1 "command" ++ ", " ++ q1 "v" ++ ")"]
  else if action = "key" then
    let rawKeys := match getField args "keys" with
      | none => JVal.jarr []
      | some v => v
    (keysList rawKeys).map (fun ks =>
      let keysStr := joinComma (ks.map (fun k => q1 (fstrJ k)))
      if ks.length > 1 then ["pyautogui.hotkey(" ++ keysStr ++ ")"]
      else ["pyautogui.press(" ++ keysStr ++ ")"])
  else if action = "scroll" then
    let pixels := match getField args "pixels" with
      | none => JVal.jint 0
      | some v => v
    .ok ["pyautogui.scroll(" ++ fstrJ pixels ++ ")"]
  else if action = "wait" then
    .ok ["WAIT"]
  else if action = "terminate" then
    .ok ["DONE"]
  else if action = "mouse_move" then
    match getField args "coordinate" with
    | some v =>
      (coordPair v).map (fun p =>
        ["pyautogui.moveTo(" ++ fmtXY (adjust_coordinates cfg p.1 p.2) ++ ")"])
    | none => .ok ["pyautogui.moveTo(0, 0)"]
  else if action = "left_click_drag" then
    match getField args "coordinate" with
    | some v =>
      let duration := match getField args "duration" with
        | none => JVal.jfloat (1 / 2)
        | some d => d
      (coordPair v).map (fun p =>
        ["pyautogui.dragTo(" ++ fmtXY (adjust_coordinates cfg p.1 p.2) ++
         ", duration=" ++ fstrJ duration ++ ")"])
    | none => .ok ["pyautogui.dragTo(0, 0)"]
  else
    .ok []

/-- Argument-dict selection of `process_tool_call` (lines 91-95): the
`arguments` of a `computer_use` call, or the object itself when it carries
an inline `action`. -/
def toolCallArgs (fields : List (String × JVal)) : Option JVal :=
  if (match getField fields "name" with
      | some (.jstr s) => s == "computer_use"
      | _ => false) && hasField fields "arguments"
  then getField fields "arguments"
  else if hasField fields "action" then some (.jobj fields)
  else none

/-- Model of `process_tool_call`: tolerant JSON coercion, argument-dict
selection, then dispatch. `json` failures and non-dict shapes return
without commands. -/
def process_tool_call (cfg : ParserCfg) (jsonStr : String) : Except String (List String) :=
  match coerce_json jsonStr with
  | none => .ok []
  | some tc =>
    match tc with
    | .jobj fields =>
      match toolCallArgs fields with
      | some (.jobj args) => dispatch cfg args
      | _ => .ok []
    | _ => .ok []

/-- Decidable equality for `Except` results (used to evaluate the model at
concrete inputs). -/
def exceptDecEq {ε α : Type} [DecidableEq ε] [DecidableEq α] :
    DecidableEq (Except ε α)
  | .error e1, .error e2 =>
    if h : e1 = e2 then isTrue (by rw [h])
    else isFalse (by intro hc; cases hc; exact h rfl)
  | .error _, .ok _ => isFalse (by intro hc; cases hc)
  | .ok _, .error _ => isFalse (by intro hc; cases hc)
  | .ok a1, .ok a2 =>
    if h : a1 = a2 then isTrue (by rw [h])
    else isFalse (by intro hc; cases hc; exact h rfl)

instance {ε α : Type} [DecidableEq ε] [DecidableEq α] : DecidableEq (Except ε α) :=
  exceptDecEq

/-! ### The `parse_response` main body (qwen_response_parser.py 18-289) -/

/-- One step of `for marker in (...): if marker in text: text = split...`. -/
def cutMarker (text marker : String) : String :=
  match strSplitFirst text marker with
  | some (pre, _) => pyStrip pre
  | none => text

/-- Truncate an action summary at the first structured-block marker. -/
def cutMarkers (text : String) : String :=
  cutMarker (cutMarker text "<tool_call") "<skill"

/-- Suffix of `cs` after the first case-insensitive occurrence of `pat`
(`pat` given lowercase); models `re.search` with `re.IGNORECASE`. -/
def findCI (pat : List Char) : List Char → Option (List Char)
  | [] => none
  | c :: rest =>
    if (List.take pat.length (c :: rest)).map Char.toLower = pat then
      some (List.drop pat.length (c :: rest))
    else findCI pat rest

/-- Model of lines 40-47: the initial summary extracted with
`re.search(r"Action:\s*(.*)", response, re.IGNORECASE)` — skip `\s`
characters after the marker, capture to the end of the line, strip, and
truncate at block markers; empty results leave the summary empty. -/
def regexActionText (r : String) : String :=
  match findCI "action:".data r.data with
  | none => ""
  | some rest =>
    let captured := (rest.dropWhile pyIsSpace).takeWhile (fun c => c ≠ '\n')
    let t := pyStrip ⟨captured⟩
    cutMarkers t

/-- Mutable state of the line-scanning loop (lines 230-277). -/
structure PRState where
  low : String
  code : List String
  insideToolCall : Bool
  currentToolCall : List String
deriving DecidableEq

/-- One iteration of the `for line in lines` loop (lines 237-274).
`Except.error` models an uncaught Python exception; in particular the
`line.split("Action:", 1)[1]` `IndexError` when a line passes the
case-insensitive `startswith` check but lacks the exact text `Action:`. -/
def lineStep (cfg : ParserCfg) (st : PRState) (rawLine : String) : Except String PRState :=
  let line := pyStrip rawLine
  if line = "" then .ok st
  else if pyStartsWith (pyLower line) "action:" then
    if st.low = "" then
      match strSplitFirst line "Action:" with
      | none => .error "IndexError: list index out of range"
      | some (_, rest) =>
        let remainder := cutMarkers (pyStrip rest)
        .ok { st with low := if remainder = "" then st.low else remainder }
    else .ok st
  else if pyStartsWith line "<tool_call>" then
    .ok { st with insideToolCall := true }
  else if pyStartsWith line "</tool_call>" then
    if st.currentToolCall ≠ [] then
      (process_tool_call cfg (joinNl st.currentToolCall)).map (fun cmds =>
        { st with code := st.code ++ cmds, currentToolCall := [], insideToolCall := false })
    else .ok { st with insideToolCall := false }
  else if st.insideToolCall then
    .ok { st with currentToolCall := st.currentToolCall ++ [line] }
  else if pyStartsWith line lcurl ∧ pyEndsWith line rcurl then
    match jsonParse line with
    | some (.jobj fs) =>
      if hasField fs "name" ∧ hasField fs "arguments" then
        (process_tool_call cfg line).map (fun cmds => { st with code := st.code ++ cmds })
      else .ok st
    | some _ => .ok st
    | none => .ok st
  else .ok st

/-- The loop over all lines with Python exception propagation. -/
def runLines (cfg : ParserCfg) : List String → PRState → Except String PRState
  | [], st => .ok st
  | l :: ls, st =>
    match lineStep cfg st l with
    | .ok st2 => runLines cfg ls st2
    | .error e => .error e

/-- Normalisation of tool-call markers onto their own lines (lines 225-230). -/
def normalizeResponse (r : String) : String :=
  strReplace (strReplace r "<tool_call>" ("\n" ++ "<tool_call>" ++ "\n"))
    "</tool_call>" ("\n" ++ "</tool_call>" ++ "\n")

/-- The line list the loop scans. -/
def linesOfResponse (r : String) : List String := splitLines (normalizeResponse r)

/-- Fallback summary synthesised from the first command (lines 279-287). -/
def fallbackSummary (firstCmd : String) : String :=
  let actionType :=
    match strSplitFirst firstCmd "." with
    | some (_, rest) =>
      (match strSplitFirst rest "(" with
       | some (pre, _) => pre
       | none => rest)
    | none => firstCmd
  "Performing " ++ actionType ++ " action"

/-- Model of `parse_response`: returns the low-level instruction summary and
the compiled pyautogui command list, or `Except.error` for an uncaught
Python exception. The input is `Option String` (`none` models `None`). -/
def parse_response (cfg : ParserCfg) (response : Option String) :
    Except String (String × List String) :=
  match response with
  | none => .ok ("", [])
  | some r =>
    if pyStrip r = "" then .ok ("", [])
    else
      let low0 := regexActionText r
      match runLines cfg (linesOfResponse r)
          { low := low0, code := [], insideToolCall := false, currentToolCall := [] } with
      | .error e => .error e
      | .ok st =>
        match
          (if st.currentToolCall ≠ [] then process_tool_call cfg (joinNl st.currentToolCall)
           else .ok []) with
        | .error e => .error e
        | .ok extra =>
          let code := st.code ++ extra
          match code with
          | [] => .ok (st.low, code)
          | first :: _ =>
            .ok ((if st.low = "" then fallbackSummary first else st.low), code)

/-- The strings fed to `process_tool_call` while scanning `ls` from loop
state `(inside, current)`: completed tool-call blocks, bare JSON lines
carrying `name`+`arguments`, and the trailing unterminated block. -/
def collectBlocks : List String → Bool → List String → List String
  | [], _, current => if current ≠ [] then [joinNl current] else []
  | l :: ls, inside, current =>
    let line := pyStrip l
    if line = "" then collectBlocks ls inside current
    else if pyStartsWith (pyLower line) "action:" then collectBlocks ls inside current
    else if pyStartsWith line "<tool_call>" then collectBlocks ls true current
    else if pyStartsWith line "</tool_call>" then
      if current ≠ [] then joinNl current :: collectBlocks ls false []
      else collectBlocks ls false current
    else if inside then collectBlocks ls inside (current ++ [line])
    else if pyStartsWith line lcurl ∧ pyEndsWith line rcurl then
      match jsonParse line with
      | some (.jobj fs) =>
        if hasField fs "name" ∧ hasField fs "arguments" then line :: collectBlocks ls inside current
        else collectBlocks ls inside current
      | some _ => collectBlocks ls inside current
      | none => collectBlocks ls inside current
    else collectBlocks ls inside current

/-- A line is safe from the `Action:`-case-mismatch `IndexError`: if its
lowered strip starts with `action:`, it must contain the exact `Action:`. -/
def actionLineSafe (l : String) : Bool :=
  !(pyStartsWith (pyLower (pyStrip l)) "action:") ||
    (strSplitFirst (pyStrip l) "Action:").isSome

/-- Action names that `process_tool_call` recognises (after aliasing). -/
def supportedActions : List String :=
  ["left_click", "right_click", "middle_click", "double_click", "type", "key",
   "scroll", "wait", "terminate", "mouse_move", "left_click_drag"]

/-! ## Step budget enforcement (qwen_agent.py lines 183-198) -/

/-- Text used when the step budget forces termination. -/
def forcedFailText : String := "Fail the task because reaching the maximum step limit."

/-- Model of the tail of `Qwen3VLAgent.predict`: append the turn action to
`executed_actions` (`low or "Skill interaction"`), then force `FAIL` when the
step count has reached `max_steps` and the first compiled command is neither
`DONE` nor `FAIL`. Returns (executed actions, instruction, command list). -/
def predictStepBudget (max_steps : Nat) (executed_actions : List String)
    (low_level_instruction : String) (pyautogui_code : List String) :
    List String × String × List String :=
  let executed := executed_actions ++
    [if low_level_instruction = "" then "Skill interaction" else low_level_instruction]
  let current_step := executed.length
  match pyautogui_code with
  | [] => (executed, low_level_instruction, pyautogui_code)
  | first :: _ =>
    if max_steps ≤ current_step ∧ ¬ strContains first "DONE" ∧ ¬ strContains first "FAIL"
    then (executed, forcedFailText, ["FAIL"])
    else (executed, low_level_instruction, pyautogui_code)

/-! ## Outbound message trimming (qwen_agent.py `_prepare_messages_for_send`) -/

/-- A content part of a conversation message. -/
inductive MPart where
  | mtext (s : String)
  | mimage (url : String)
  | mother (t : String)
deriving DecidableEq

/-- A conversation message. -/
structure MMsg where
  role : String
  content : List MPart
deriving DecidableEq

/-- Is this part a `text` part? -/
def isTextPart : MPart → Bool
  | .mtext _ => true
  | _ => false

/-- Is this part an `image_url` part? -/
def isImagePart : MPart → Bool
  | .mimage _ => true
  | _ => false

/-- The placeholder inserted for an elided screenshot. -/
def omittedMarker : MPart := .mtext "(previous screenshot omitted)"

/-- Content rebuild for one message (lines 559-572): keep the single latest
image while budget remains; otherwise keep text, or a placeholder when the
message would become empty. Returns the new content and remaining budget. -/
def trimContent (budget : Nat) (parts : List MPart) : List MPart × Nat :=
  let tps := parts.filter isTextPart
  let ips := parts.filter isImagePart
  if ips ≠ [] ∧ 0 < budget then (tps ++ ips.take 1, budget - 1)
  else if tps ≠ [] then (tps, budget)
  else if ips ≠ [] then ([omittedMarker], budget)
  else ([], budget)

/-- The `for raw in reversed(remaining)` loop (lines 556-576): the input list
is already reversed (newest first); stop once `max_messages` are kept. -/
def trimLoop (maxM : Nat) : List MMsg → Nat → List MMsg → List MMsg
  | [], _, acc => acc
  | m :: rest, budget, acc =>
    let cb := trimContent budget m.content
    let acc2 := acc ++ [⟨m.role, cb.1⟩]
    if maxM ≤ acc2.length then acc2 else trimLoop maxM rest cb.2 acc2

/-- Model of `_prepare_messages_for_send` with its default
`max_messages`/`max_images` arguments explicit. -/
def prepareMessagesForSend (maxM maxI : Nat) (msgs : List MMsg) : List MMsg :=
  match msgs with
  | [] => []
  | m :: rest =>
    if m.role = "system" then m :: (trimLoop maxM rest.reverse maxI []).reverse
    else (trimLoop maxM msgs.reverse maxI []).reverse

/-- Number of image parts across a message list. -/
def imageCount (msgs : List MMsg) : Nat :=
  (msgs.map (fun m => (m.content.filter isImagePart).length)).sum

/-! ## Run lifecycle manager (services/gui_agent.py) -/

/-- A streamed run event (the fields of the cancellation status event). -/
structure RunEvent where
  etype : String
  message : String
  status : String
  run_id : String
deriving DecidableEq

/-- The mutable state of one `GuiAgentRun` that the claims concern. -/
structure RunState where
  session_id : String
  instruction : String
  status : String
  cancelRequested : Bool
  queue : List RunEvent
deriving DecidableEq

/-- The run table of the manager (`self._runs`), in dict insertion order. -/
structure SvcState where
  runs : List (String × RunState)
deriving DecidableEq

/-- The handle returned by `start_run`. -/
structure RunHandle where
  run_id : String
  session_id : String
  instruction : String
deriving DecidableEq

/-- Is a status non-terminal (counted as active)? -/
def isActiveStatus (st : String) : Bool := st = "pending" || st = "running"

/-- Model of `_active_run`: first run whose status is pending/running. -/
def activeRun (s : SvcState) : Option (String × RunState) :=
  s.runs.find? (fun p => isActiveStatus p.2.status)

/-- Model of `start_run` (lines 78-108). The fresh `run_id` (a UUID in the
source) is a parameter. The run is created `pending` and set `running`
before the lock is released, so the post-state holds it as `running`. -/
def startRun (s : SvcState) (session_id instruction run_id : String) :
    SvcState × Except String RunHandle :=
  let normalized := pyStrip instruction
  if normalized = "" then (s, .error "Instruction is required")
  else
    match activeRun s with
    | some _ => (s, .error "Another GUI agent task is already running")
    | none =>
      let run : RunState :=
        { session_id := session_id, instruction := normalized, status := "running",
          cancelRequested := false, queue := [] }
      ({ runs := s.runs ++ [(run_id, run)] },
       .ok { run_id := run_id, session_id := session_id, instruction := normalized })

/-- Python `self._runs.get(run_id)`. -/
def lookupRun (s : SvcState) (run_id : String) : Option RunState :=
  (s.runs.find? (fun p => p.1 = run_id)).map (fun p => p.2)

/-- Replace the state of run `run_id` (models mutating the run object). -/
def updateRun (s : SvcState) (run_id : String) (r : RunState) : SvcState :=
  { runs := s.runs.map (fun p => if p.1 = run_id then (p.1, r) else p) }

/-- The cancellation status event enqueued by `cancel_run`. -/
def cancelEvent (run_id : String) : RunEvent :=
  { etype := "status", message := "用户已请求中断", status := "cancelled", run_id := run_id }

/-- Statuses treated as terminal by `cancel_run`. -/
def isTerminalStatus (st : String) : Bool :=
  st = "completed" || st = "error" || st = "cancelled"

/-- Model of `cancel_run` (lines 141-161): no-op returning `false` for
unknown or already-terminal runs; otherwise mark cancelled, set the
cancellation flag, enqueue the status event (the queue is unbounded, so
`put_nowait` always succeeds) and return `true`. -/
def cancelRun (s : SvcState) (run_id : String) : SvcState × Bool :=
  match lookupRun s run_id with
  | none => (s, false)
  | some run =>
    if isTerminalStatus run.status then (s, false)
    else
      (updateRun s run_id
        { run with status := "cancelled", cancelRequested := true,
                   queue := run.queue ++ [cancelEvent run_id] },
       true)

/-- Number of active (pending/running) runs. -/
def activeCount (s : SvcState) : Nat :=
  (s.runs.filter (fun p => isActiveStatus p.2.status)).length

/-! ## Skill repository (skills/repository.py) -/

/-- A cached skill (`path` is identified by the id/stem in this model). -/
structure SkillM where
  id : String
  title : String
  body : String
deriving DecidableEq

/-- Repository state: the backing directory (`.md` stems with readable
content, `none` modelling an `OSError` on read), and the in-memory cache. -/
structure RepoState where
  files : List (String × Option String)
  cache : List (String × SkillM)
deriving DecidableEq

/-- Regex `\w` word character (ASCII approximation of the unicode class). -/
def pyIsWordChar (c : Char) : Bool := c.isAlpha || c.isDigit || c = '_'

/-- Collapse runs of hyphens to a single hyphen (the second regex
substitution in the slug helper). -/
def collapseHyphens : List Char → List Char
  | [] => []
  | [c] => [c]
  | c :: d :: rest =>
    if c = '-' ∧ d = '-' then collapseHyphens (d :: rest)
    else c :: collapseHyphens (d :: rest)

/-- Model of `_slugify`: lower-cased strip, non-word runs to `-`, hyphen
runs collapsed, surrounding `-`/`_` stripped, `"skill"` fallback. -/
def slugify (text : String) : String :=
  let slug := pyLower (pyStrip text)
  let step1 := slug.data.map (fun c => if pyIsWordChar c || c = '-' then c else '-')
  let step3 := stripPred (fun c => c = '-' || c = '_') (collapseHyphens step1)
  if step3 = [] then "skill" else ⟨step3⟩

/-- Does a file with this stem exist (`path.exists()`)? -/
def hasStem (files : List (String × Option String)) (stem : String) : Bool :=
  files.any (fun p => p.1 = stem)

/-- The `while path.exists()` counter loop of `_unique_path` (fueled; the
fuel exceeds the file count, so a free name is always found in range). -/
def uniqueStemLoop (files : List (String × Option String)) :
    Nat → String → Nat → String
  | 0, base, counter => base ++ "-" ++ toString counter
  | fuel + 1, base, counter =>
    let cand := base ++ "-" ++ toString counter
    if hasStem files cand then uniqueStemLoop files fuel base (counter + 1) else cand

/-- Model of `_unique_path` (returning the chosen stem). -/
def uniqueStem (files : List (String × Option String)) (slug : String) : String :=
  let base := if slug = "" then "skill" else slug
  if hasStem files base then uniqueStemLoop files (files.length + 1) base 1 else base

/-- Python `str.rstrip()` as a `String` function. -/
def pyRstrip (s : String) : String := ⟨rstripWs s.data⟩

/-- Model of `_compose_file`. -/
def composeFile (title body : String) : String :=
  if body ≠ "" then "# " ++ title ++ "\n\n" ++ pyRstrip body ++ "\n"
  else "# " ++ title ++ "\n"

/-- Dict-style association update: overwrite in place or append. -/
def assocUpdate {α : Type} (l : List (String × α)) (k : String) (v : α) :
    List (String × α) :=
  if l.any (fun p => p.1 = k) then l.map (fun p => if p.1 = k then (k, v) else p)
  else l ++ [(k, v)]

/-- Association lookup (first match). -/
def assocLookup {α : Type} (l : List (String × α)) (k : String) : Option α :=
  (l.find? (fun p => p.1 = k)).map (fun p => p.2)

/-- Model of `SkillRepository.upsert` (lines 85-114): strip the title,
strip surrounding newlines from the body, fail on an empty title, choose
the file stem, write the file, and cache the skill (whose stored body is
additionally fully stripped). -/
def upsert (s : RepoState) (title body : String) (skill_id : Option String) :
    Except String (RepoState × SkillM) :=
  let title := pyStrip title
  let body := pyStripNl body
  if title = "" then .error "ValueError: title is required"
  else
    let sid := match skill_id with
      | some i => i
      | none => uniqueStem s.files (slugify title)
    let content := composeFile title body
    let skill : SkillM := { id := sid, title := title, body := pyStrip body }
    .ok ({ files := assocUpdate s.files sid (some content),
           cache := assocUpdate s.cache sid skill }, skill)

/-- Model of `SkillRepository.get`: cache lookup, `KeyError` if missing. -/
def repoGet (s : RepoState) (skill_id : String) : Except String SkillM :=
  match assocLookup s.cache skill_id with
  | some sk => .ok sk
  | none => .error "KeyError"

/-- Python `lstrip("# ")`. -/
def lstripHashSpace (s : String) : String :=
  ⟨s.data.dropWhile (fun c => c = '#' || c = ' ')⟩

/-- Find the first non-blank line; return its strip and the lines after. -/
def findTitleLine : List String → Option (String × List String)
  | [] => none
  | raw :: rest =>
    if pyStrip raw ≠ "" then some (pyStrip raw, rest) else findTitleLine rest

/-- Model of `_parse_markdown` (newline splitting stands in for Python
`splitlines`; the final strips make the trailing-line difference moot). -/
def parseMarkdown (text fallback_title : String) : String × String :=
  let lines := splitLines text
  match findTitleLine lines with
  | some (stripped, rest) =>
    let t := pyStrip (lstripHashSpace stripped)
    ((if t = "" then fallback_title else t), pyStrip (joinNl rest))
  | none => (fallback_title, pyStrip (joinNl lines))

/-- Model of `_load_skill`: unreadable files yield nothing. -/
def loadSkill (stem : String) : Option String → Option SkillM
  | none => none
  | some data =>
    let tb := parseMarkdown data stem
    some { id := stem, title := tb.1, body := tb.2 }

/-- Insertion into a stem-sorted file list. -/
def insertSortedFile (x : String × Option String) :
    List (String × Option String) → List (String × Option String)
  | [] => [x]
  | y :: rest => if x.1 < y.1 then x :: y :: rest else y :: insertSortedFile x rest

/-- `sorted(self._skills_dir.glob("*.md"))`. -/
def sortFiles (files : List (String × Option String)) :
    List (String × Option String) :=
  files.foldr insertSortedFile []

/-- The directory scan performed by `refresh`. -/
def scanFiles (files : List (String × Option String)) : List (String × SkillM) :=
  (sortFiles files).foldl
    (fun acc p =>
      match loadSkill p.1 p.2 with
      | some sk => assocUpdate acc sk.id sk
      | none => acc) []

/-- Model of `SkillRepository.refresh`: rebuild the cache wholesale. -/
def refresh (s : RepoState) : RepoState := { s with cache := scanFiles s.files }

/-- Model of `list_titles` (id and title of every cached skill). -/
def listTitles (s : RepoState) : List (String × String) :=
  s.cache.map (fun p => (p.2.id, p.2.title))

/-! ## Skill manager (qwen_skills.py) -/

/-- Model of `get_by_title`: first case-insensitive stripped title match. -/
def repoGetByTitle (cache : List (String × SkillM)) (title : String) : Option SkillM :=
  let normalized := pyLower (pyStrip title)
  (cache.find? (fun p => pyLower (pyStrip p.2.title) = normalized)).map (fun p => p.2)

/-- Model of `SkillManager.lookup`: id lookup with case-insensitive title
fallback; missing repo or blank reference resolves to nothing. -/
def smLookup (repo : Option RepoState) (reference : String) : Option SkillM :=
  match repo with
  | none => none
  | some st =>
    let ref := pyStrip reference
    if ref = "" then none
    else
      match repoGet st ref with
      | .ok sk => some sk
      | .error _ => repoGetByTitle st.cache ref

/-- The notice injected when a referenced skill cannot be resolved. -/
def skillNotAvailable (reference : String) : String :=
  "Skill \"" ++ reference ++ "\" is not available. Continue the task without it."

/-- Model of `format_skill_message`. -/
def formatSkillMessage (sk : SkillM) : String :=
  let body := if pyStrip sk.body = "" then "（技能暂无详细步骤）" else pyStrip sk.body
  "Here is the stored skill \"" ++ sk.title ++
    "\". Treat the following steps as a reliable example:\n" ++ body

/-- Model of `build_skill_reply`: rendered skill text plus availability. -/
def buildSkillReply (repo : Option RepoState) (reference : String) : String × Bool :=
  match smLookup repo reference with
  | some sk => (formatSkillMessage sk, true)
  | none => (skillNotAvailable reference, false)

/-! ## Helper lemmas -/

theorem assocLookup_update {α : Type} (l : List (String × α)) (k : String) (v : α) :
    assocLookup (assocUpdate l k v) k = some v := by
  unfold assocLookup assocUpdate
  by_cases h : l.any (fun p => p.1 = k)
  · rw [if_pos h]
    induction l with
    | nil => simp at h
    | cons p rest ih =>
      by_cases hp : p.1 = k
      · simp [List.find?, hp]
      · have hrest : rest.any (fun p => p.1 = k) := by
          simpa [List.any_cons, hp] using h
        simpa [List.find?, hp] using ih hrest
  · rw [if_neg h]
    induction l with
    | nil => simp [List.find?]
    | cons p rest ih =>
      have hp : ¬ (p.1 = k) := by
        intro hk
        exact h (by simp [List.any_cons, hk])
      have hrest : ¬ rest.any (fun p => p.1 = k) := by
        intro hk
        exact h (by simp [List.any_cons, hk])
      simpa [List.find?, hp] using ih hrest

theorem dropWhile_dropWhile_sub {p q : Char → Bool} (h : ∀ c, q c = true → p c = true) :
    ∀ l : List Char, List.dropWhile p (List.dropWhile q l) = List.dropWhile p l := by
  intro l
  induction l with
  | nil => rfl
  | cons c rest ih =>
    by_cases hq : q c = true
    · rw [List.dropWhile_cons_of_pos hq, ih, List.dropWhile_cons_of_pos (h c hq)]
    · rw [List.dropWhile_cons_of_neg (by simp [hq])]

theorem dropWhile_rdropWhile_comm (p q : Char → Bool) :
    ∀ l : List Char,
      List.dropWhile p (List.rdropWhile q l) = List.rdropWhile q (List.dropWhile p l) := by
  intro l
  induction l using List.reverseRecOn with
  | nil => simp [List.rdropWhile_nil]
  | append_singleton t a ih =>
    by_cases hqa : q a = true
    · rw [List.rdropWhile_concat_pos _ _ _ hqa, ih, List.dropWhile_append]
      by_cases hd : (List.dropWhile p t).isEmpty
      · have ht : List.dropWhile p t = [] := by
          simpa [List.isEmpty_iff] using hd
        rw [if_pos hd, ht, List.rdropWhile_nil]
        by_cases hpa : p a = true
        · simp [List.dropWhile_cons, hpa]
        · simp [List.dropWhile_cons, hpa, List.rdropWhile_singleton, hqa]
      · rw [if_neg hd, List.rdropWhile_concat_pos _ _ _ hqa]
    · have hqa2 : q a = false := by simpa using hqa
      rw [List.rdropWhile_concat_neg _ _ _ (by simp [hqa2]), List.dropWhile_append]
      by_cases hd : (List.dropWhile p t).isEmpty
      · rw [if_pos hd]
        by_cases hpa : p a = true
        · simp [List.dropWhile_cons, hpa, List.rdropWhile_nil]
        · simp [List.dropWhile_cons, hpa, List.rdropWhile_singleton, hqa2]
      · rw [if_neg hd, List.rdropWhile_concat_neg _ _ _ (by simp [hqa2])]

theorem stripPred_eq_rdropWhile (p : Char → Bool) (l : List Char) :
    stripPred p l = List.rdropWhile p (List.dropWhile p l) := rfl

theorem rdropWhile_rdropWhile_sub {p q : Char → Bool} (h : ∀ c, q c = true → p c = true)
    (l : List Char) :
    List.rdropWhile p (List.rdropWhile q l) = List.rdropWhile p l := by
  simp only [List.rdropWhile, List.reverse_reverse]
  rw [dropWhile_dropWhile_sub h]

theorem stripPred_stripPred {p q : Char → Bool} (h : ∀ c, q c = true → p c = true)
    (l : List Char) : stripPred p (stripPred q l) = stripPred p l := by
  rw [stripPred_eq_rdropWhile, stripPred_eq_rdropWhile,
    dropWhile_rdropWhile_comm, dropWhile_dropWhile_sub h,
    rdropWhile_rdropWhile_sub h]
  exact (stripPred_eq_rdropWhile p l).symm

theorem pyStrip_pyStripNl (s : String) : pyStrip (pyStripNl s) = pyStrip s := by
  unfold pyStrip pyStripNl
  congr 1
  exact stripPred_stripPred (fun c hc => by simp [pyIsSpace, of_decide_eq_true hc]) s.data

/-! ## Claims -/

/-- C10: `parse_response` on a `None` input or an input that strips to
nothing returns the empty instruction summary and the empty command list,
for every coordinate mode and size configuration, without raising. -/
theorem c10_blank_response_early_return (cfg : ParserCfg) (response : Option String)
    (h : response = none ∨ ∃ r, response = some r ∧ pyStrip r = "") :
    parse_response cfg response = .ok ("", []) := by
  rcases h with h | ⟨r, rfl, hr⟩
  · subst h; rfl
  · simp [parse_response, hr]

/-- Witness for C10 at a concrete whitespace-only input. -/
theorem c10_blank_response_early_return_witness :
    parse_response ⟨"relative", some 1512, some 982, none, none⟩ (some " \t\n  ") =
      .ok ("", []) :=
  c10_blank_response_early_return _ _ (Or.inr ⟨" \t\n  ", rfl, by decide⟩)

/-- C2: when the number of executed turns (including the one being
recorded) has reached `max_steps` and the first compiled command is neither
a `DONE` nor a `FAIL` terminal, `predict` overrides the result with the
single forced-failure action `["FAIL"]` and the step-limit explanation. -/
theorem c2_step_budget_forces_fail (max_steps : Nat) (executed : List String)
    (low first : String) (rest : List String)
    (hstep : max_steps ≤ executed.length + 1)
    (hdone : strContains first "DONE" = false)
    (hfail : strContains first "FAIL" = false) :
    predictStepBudget max_steps executed low (first :: rest) =
      (executed ++ [if low = "" then "Skill interaction" else low],
       forcedFailText, ["FAIL"]) := by
  simp [predictStepBudget, hstep, hdone, hfail]

/-- Witness for C2: 14 previously executed turns, `max_steps = 15`, a
non-terminal click command on the 15th turn. -/
theorem c2_step_budget_forces_fail_witness :
    predictStepBudget 15 (List.replicate 14 "click the button") "open the menu"
        ["pyautogui.click(10, 20)"] =
      (List.replicate 14 "click the button" ++ ["open the menu"],
       forcedFailText, ["FAIL"]) := by
  have h := c2_step_budget_forces_fail 15 (List.replicate 14 "click the button")
    "open the menu" "pyautogui.click(10, 20)" [] (by simp) (by decide) (by decide)
  simpa using h

/-- C7: a skill reference that resolves neither by id nor by
case-insensitive title yields exactly the polite unavailability notice with
availability flag `false`; the lookup is a total function, so the
conversation loop cannot fail because a skill is missing. -/
theorem c7_missing_skill_notice (repo : Option RepoState) (reference : String)
    (hid : ∀ st, repo = some st → assocLookup st.cache (pyStrip reference) = none)
    (htitle : ∀ st, repo = some st → repoGetByTitle st.cache (pyStrip reference) = none) :
    buildSkillReply repo reference =
      ("Skill \"" ++ reference ++ "\" is not available. Continue the task without it.",
       false) := by
  have hlk : smLookup repo reference = none := by
    cases repo with
    | none => rfl
    | some st =>
      unfold smLookup
      by_cases hr : pyStrip reference = ""
      · simp [hr]
      · simp [hr, repoGet, hid st rfl, htitle st rfl]
  simp [buildSkillReply, hlk, skillNotAvailable]

/-- Witness for C7: empty repository, reference `foo`. -/
theorem c7_missing_skill_notice_witness :
    buildSkillReply (some ⟨[], []⟩) "foo" =
      ("Skill \"foo\" is not available. Continue the task without it.", false) :=
  c7_missing_skill_notice (some ⟨[], []⟩) "foo"
    (fun st hst => by cases hst; rfl) (fun st hst => by cases hst; rfl)

/-- C9: with unchanged backing files, `refresh` is idempotent — a second
refresh leaves the whole repository state, hence the skill set and the
`list_titles` listing, identical. -/
theorem c9_refresh_idempotent (s : RepoState) :
    refresh (refresh s) = refresh s ∧
    (refresh (refresh s)).cache = (refresh s).cache ∧
    listTitles (refresh (refresh s)) = listTitles (refresh s) := by
  refine ⟨?_, ?_, ?_⟩ <;> rfl

/-- C4: cancelling an unknown or already-terminal run returns `false` and
leaves the whole state (hence every event queue) unchanged; cancelling an
active run returns `true`, marks it cancelled, sets the cancellation flag,
and enqueues the cancellation status event. -/
theorem c4_cancel_run_semantics (s : SvcState) (run_id : String) :
    (lookupRun s run_id = none → cancelRun s run_id = (s, false)) ∧
    (∀ run, lookupRun s run_id = some run → isTerminalStatus run.status = true →
        cancelRun s run_id = (s, false)) ∧
    (∀ run, lookupRun s run_id = some run → isTerminalStatus run.status = false →
        cancelRun s run_id =
          (updateRun s run_id
            { run with status := "cancelled", cancelRequested := true,
                       queue := run.queue ++ [cancelEvent run_id] }, true)) := by
  refine ⟨?_, ?_, ?_⟩
  · intro h; simp [cancelRun, h]
  · intro run h hterm; simp [cancelRun, h, hterm]
  · intro run h hterm; simp [cancelRun, h, hterm]

/-- Witness for C4: an unknown id, a completed run, and a running run. -/
theorem c4_cancel_run_semantics_witness :
    cancelRun ⟨[("r1", ⟨"s", "go", "completed", false, []⟩)]⟩ "zz" =
      (⟨[("r1", ⟨"s", "go", "completed", false, []⟩)]⟩, false) ∧
    cancelRun ⟨[("r1", ⟨"s", "go", "completed", false, []⟩)]⟩ "r1" =
      (⟨[("r1", ⟨"s", "go", "completed", false, []⟩)]⟩, false) ∧
    cancelRun ⟨[("r2", ⟨"s", "go", "running", false, []⟩)]⟩ "r2" =
      (updateRun ⟨[("r2", ⟨"s", "go", "running", false, []⟩)]⟩ "r2"
        ⟨"s", "go", "cancelled", true, [cancelEvent "r2"]⟩, true) := by
  refine ⟨?_, ?_, ?_⟩
  · exact (c4_cancel_run_semantics ⟨[("r1", ⟨"s", "go", "completed", false, []⟩)]⟩ "zz").1
      (by decide)
  · exact (c4_cancel_run_semantics ⟨[("r1", ⟨"s", "go", "completed", false, []⟩)]⟩ "r1").2.1
      ⟨"s", "go", "completed", false, []⟩ (by decide) (by decide)
  · exact (c4_cancel_run_semantics ⟨[("r2", ⟨"s", "go", "running", false, []⟩)]⟩ "r2").2.2
      ⟨"s", "go", "running", false, []⟩ (by decide) (by decide)

/-- C3: while a pending/running run exists, `start_run` fails with the
conflict error and returns the state unchanged (no run table mutation, no
new run); and admission preserves the at-most-one-active-run invariant. -/
theorem c3_single_active_admission (s : SvcState) (sid instr rid : String) :
    (pyStrip instr ≠ "" → (activeRun s).isSome = true →
        startRun s sid instr rid =
          (s, .error "Another GUI agent task is already running")) ∧
    (activeCount s ≤ 1 → activeCount (startRun s sid instr rid).1 ≤ 1) := by
  constructor
  · intro hi ha
    rcases ho : activeRun s with _ | p
    · rw [ho] at ha; simp at ha
    · simp [startRun, hi, ho]
  · intro hc
    by_cases hi : pyStrip instr = ""
    · simpa [startRun, hi] using hc
    · rcases ho : activeRun s with _ | p
      · have hempty : List.filter (fun p => isActiveStatus p.2.status) s.runs = [] := by
          rw [List.filter_eq_nil_iff]
          intro a ha
          simpa using List.find?_eq_none.mp ho a ha
        simp only [startRun, if_neg hi, ho, activeCount]
        rw [List.filter_append, hempty]
        simp [isActiveStatus]
      · simpa [startRun, hi, ho] using hc

/-- Witness for C3: a state with one running run rejects admission and a
state with no active run admits one run, keeping the invariant. -/
theorem c3_single_active_admission_witness :
    startRun ⟨[("r1", ⟨"s", "go", "running", false, []⟩)]⟩ "s2" "open the app" "r2" =
      (⟨[("r1", ⟨"s", "go", "running", false, []⟩)]⟩,
       .error "Another GUI agent task is already running") ∧
    activeCount (startRun ⟨[("r0", ⟨"s", "go", "completed", false, []⟩)]⟩
        "s2" "open the app" "r2").1 ≤ 1 := by
  constructor
  · exact (c3_single_active_admission ⟨[("r1", ⟨"s", "go", "running", false, []⟩)]⟩
      "s2" "open the app" "r2").1 (by decide) (by decide)
  · exact (c3_single_active_admission ⟨[("r0", ⟨"s", "go", "completed", false, []⟩)]⟩
      "s2" "open the app" "r2").2 (by decide)

/-- C5: upserting a skill with a title that is non-empty after trimming and
any body, then reading it back by the returned id, yields exactly the
trim-normalised title and body (title stripped of whitespace; body stripped
of surrounding whitespace and newlines). -/
theorem c5_upsert_roundtrip (s : RepoState) (T B : String) (h : pyStrip T ≠ "") :
    ∃ s2 sk, upsert s T B none = .ok (s2, sk) ∧
      repoGet s2 sk.id = .ok sk ∧
      sk.title = pyStrip T ∧ sk.body = pyStrip B := by
  unfold upsert
  rw [if_neg h]
  refine ⟨_, _, rfl, ?_, rfl, ?_⟩
  · simp [repoGet, assocLookup_update]
  · exact pyStrip_pyStripNl B

/-- Witness for C5: a fresh repository, a padded title and body. -/
theorem c5_upsert_roundtrip_witness :
    ∃ s2 sk, upsert ⟨[], []⟩ "  My Skill " ("\n\n step one \n") none = .ok (s2, sk) ∧
      repoGet s2 sk.id = .ok sk ∧
      sk.title = pyStrip "  My Skill " ∧ sk.body = pyStrip ("\n\n step one \n") :=
  c5_upsert_roundtrip ⟨[], []⟩ "  My Skill " ("\n\n step one \n") (by decide)

/-- C1: coordinate normalisation — relative mode scales by `W/1000` and
`H/1000`, any other non-absolute mode by `W/999` and `H/999`, absolute mode
with known nonzero processed size by `W/Wp` and `H/Hp`, unknown original
dimensions pass coordinates through as truncated integers; and the same
`adjust_coordinates` mapping is applied to left/right/middle click,
double-click, move and drag commands. -/
theorem c1_coordinate_scaling (ct : String) (w h wp hp : ℕ) (x y : ℚ)
    (hw : w ≠ 0) (hh : h ≠ 0) :
    (adjust_coordinates ⟨"relative", some w, some h, some wp, some hp⟩ x y =
        (pyInt (x * w / 1000), pyInt (y * h / 1000))) ∧
    (ct ≠ "relative" → ct ≠ "absolute" →
      adjust_coordinates ⟨ct, some w, some h, some wp, some hp⟩ x y =
        (pyInt (x * w / 999), pyInt (y * h / 999))) ∧
    (wp ≠ 0 → hp ≠ 0 →
      adjust_coordinates ⟨"absolute", some w, some h, some wp, some hp⟩ x y =
        (pyInt (x * w / wp), pyInt (y * h / hp))) ∧
    (∀ ct2 pw2 ph2,
      adjust_coordinates ⟨ct2, none, none, pw2, ph2⟩ x y = (pyInt x, pyInt y)) ∧
    (∀ cfg : ParserCfg,
      dispatch cfg [("action", .jstr "left_click"),
          ("coordinate", .jarr [.jfloat x, .jfloat y])] =
        .ok ["pyautogui.click(" ++ fmtXY (adjust_coordinates cfg x y) ++ ")"] ∧
      dispatch cfg [("action", .jstr "right_click"),
          ("coordinate", .jarr [.jfloat x, .jfloat y])] =
        .ok ["pyautogui.rightClick(" ++ fmtXY (adjust_coordinates cfg x y) ++ ")"] ∧
      dispatch cfg [("action", .jstr "middle_click"),
          ("coordinate", .jarr [.jfloat x, .jfloat y])] =
        .ok ["pyautogui.middleClick(" ++ fmtXY (adjust_coordinates cfg x y) ++ ")"] ∧
      dispatch cfg [("action", .jstr "double_click"),
          ("coordinate", .jarr [.jfloat x, .jfloat y])] =
        .ok ["pyautogui.doubleClick(" ++ fmtXY (adjust_coordinates cfg x y) ++ ")"] ∧
      dispatch cfg [("action", .jstr "mouse_move"),
          ("coordinate", .jarr [.jfloat x, .jfloat y])] =
        .ok ["pyautogui.moveTo(" ++ fmtXY (adjust_coordinates cfg x y) ++ ")"] ∧
      dispatch cfg [("action", .jstr "left_click_drag"),
          ("coordinate", .jarr [.jfloat x, .jfloat y])] =
        .ok ["pyautogui.dragTo(" ++ fmtXY (adjust_coordinates cfg x y) ++
             ", duration=" ++ fstrJ (.jfloat (1 / 2)) ++ ")"]) := by
  refine ⟨?_, ?_, ?_, ?_, ?_⟩
  · simp only [adjust_coordinates]
    rw [if_neg (by simp [hw, hh])]
    rw [if_neg (show ¬(("relative" : String) = "absolute") by decide)]
    simp [mul_div_assoc]
  · intro h1 h2
    simp only [adjust_coordinates]
    rw [if_neg (by simp [hw, hh]), if_neg h2, if_neg h1]
    rw [← mul_div_assoc, ← mul_div_assoc]
  · intro hwp hhp
    simp only [adjust_coordinates]
    rw [if_neg (by simp [hw, hh])]
    simp [hwp, hhp, mul_div_assoc]
  · intro ct2 pw2 ph2
    rfl
  · intro cfg
    refine ⟨rfl, rfl, rfl, rfl, rfl, rfl⟩

/-- Witness for C1: the 1512x982 screen with 756x491 processed size at
model coordinates (500, 250), exercising every mode and action branch. -/
theorem c1_coordinate_scaling_witness :
    (adjust_coordinates ⟨"relative", some 1512, some 982, some 756, some 491⟩ 500 250 =
        (pyInt (500 * 1512 / 1000), pyInt (250 * 982 / 1000))) ∧
    (adjust_coordinates ⟨"relative_v2", some 1512, some 982, some 756, some 491⟩ 500 250 =
        (pyInt (500 * 1512 / 999), pyInt (250 * 982 / 999))) ∧
    (adjust_coordinates ⟨"absolute", some 1512, some 982, some 756, some 491⟩ 500 250 =
        (pyInt (500 * 1512 / 756), pyInt (250 * 982 / 491))) ∧
    (adjust_coordinates ⟨"relative", none, none, some 756, some 491⟩ 500 250 =
        (pyInt 500, pyInt 250)) ∧
    (dispatch ⟨"relative", some 1512, some 982, some 756, some 491⟩
        [("action", .jstr "left_click"), ("coordinate", .jarr [.jfloat 500, .jfloat 250])] =
      .ok ["pyautogui.click(" ++
            fmtXY (adjust_coordinates
              ⟨"relative", some 1512, some 982, some 756, some 491⟩ 500 250) ++ ")"]) := by
  have hmain := c1_coordinate_scaling "relative_v2" 1512 982 756 491 500 250
    (by decide) (by decide)
  exact ⟨hmain.1, hmain.2.1 (by decide) (by decide), hmain.2.2.1 (by decide) (by decide),
    hmain.2.2.2.1 "relative" (some 756) (some 491),
    (hmain.2.2.2.2 ⟨"relative", some 1512, some 982, some 756, some 491⟩).1⟩

/-! ### C8 helper lemmas about the trimming loop -/

theorem filter_isText_no_image (parts : List MPart) :
    (parts.filter isTextPart).filter isImagePart = [] := by
  rw [List.filter_eq_nil_iff]
  intro a ha
  have := List.mem_filter.mp ha
  cases a with
  | mtext s => simp [isImagePart]
  | mimage u => simpa [isTextPart] using this.2
  | mother t => simp [isImagePart]

theorem trimContent_images (b : Nat) (parts : List MPart) :
    ((trimContent b parts).1.filter isImagePart).length + (trimContent b parts).2 ≤ b := by
  unfold trimContent
  by_cases h1 : parts.filter isImagePart ≠ [] ∧ 0 < b
  · rw [if_pos h1]
    have himg : ∀ a ∈ (parts.filter isImagePart).take 1, isImagePart a = true := by
      intro a ha
      exact (List.mem_filter.mp (List.mem_of_mem_take ha)).2
    have hone : ((parts.filter isImagePart).take 1).length = 1 := by
      rw [List.length_take]
      exact Nat.min_eq_left (List.length_pos.mpr h1.1)
    rw [List.filter_append, filter_isText_no_image, List.nil_append,
      List.filter_eq_self.mpr himg, hone]
    omega
  · rw [if_neg h1]
    by_cases h2 : parts.filter isTextPart ≠ []
    · rw [if_pos h2]
      rw [filter_isText_no_image]
      simp
    · rw [if_neg h2]
      by_cases h3 : parts.filter isImagePart ≠ []
      · rw [if_pos h3]
        simp [omittedMarker, isImagePart]
      · rw [if_neg h3]
        simp

theorem trimLoop_length (maxM : Nat) :
    ∀ (l : List MMsg) (b : Nat) (acc : List MMsg), acc.length < maxM →
      (trimLoop maxM l b acc).length ≤ maxM := by
  intro l
  induction l with
  | nil => intro b acc hacc; exact Nat.le_of_lt hacc
  | cons m rest ih =>
    intro b acc hacc
    unfold trimLoop
    by_cases hstop : maxM ≤ (acc ++ [(⟨m.role, (trimContent b m.content).1⟩ : MMsg)]).length
    · rw [if_pos hstop]
      simpa using hacc
    · rw [if_neg hstop]
      exact ih _ _ (by omega)

theorem trimLoop_images (maxM : Nat) :
    ∀ (l : List MMsg) (b : Nat) (acc : List MMsg),
      imageCount (trimLoop maxM l b acc) ≤ imageCount acc + b := by
  intro l
  induction l with
  | nil => intro b acc; simp [trimLoop]
  | cons m rest ih =>
    intro b acc
    unfold trimLoop
    have hacc2 : imageCount (acc ++ [(⟨m.role, (trimContent b m.content).1⟩ : MMsg)]) =
        imageCount acc + ((trimContent b m.content).1.filter isImagePart).length := by
      simp [imageCount]
    have hsplit := trimContent_images b m.content
    by_cases hstop : maxM ≤ (acc ++ [(⟨m.role, (trimContent b m.content).1⟩ : MMsg)]).length
    · rw [if_pos hstop, hacc2]
      omega
    · rw [if_neg hstop]
      have := ih (trimContent b m.content).2
        (acc ++ [(⟨m.role, (trimContent b m.content).1⟩ : MMsg)])
      rw [hacc2] at this
      omega

theorem trimLoop_roles (maxM : Nat) :
    ∀ (l : List MMsg) (b : Nat) (acc : List MMsg),
      ∃ k, (trimLoop maxM l b acc).map MMsg.role =
        acc.map MMsg.role ++ (l.map MMsg.role).take k := by
  intro l
  induction l with
  | nil => intro b acc; exact ⟨0, by simp [trimLoop]⟩
  | cons m rest ih =>
    intro b acc
    unfold trimLoop
    by_cases hstop : maxM ≤ (acc ++ [(⟨m.role, (trimContent b m.content).1⟩ : MMsg)]).length
    · rw [if_pos hstop]
      exact ⟨1, by simp⟩
    · rw [if_neg hstop]
      obtain ⟨k, hk⟩ := ih (trimContent b m.content).2
        (acc ++ [(⟨m.role, (trimContent b m.content).1⟩ : MMsg)])
      refine ⟨k + 1, ?_⟩
      rw [hk]
      simp

theorem reverse_take_reverse_suffix {α : Type} (l : List α) (k : Nat) :
    (l.reverse.take k).reverse <:+ l := by
  have h1 : l.reverse.take k <+: l.reverse := List.take_prefix k l.reverse
  have h2 := List.reverse_suffix.mpr h1
  simpa using h2

/-- C8 (amended): the outbound message list keeps a leading system message
at index 0, contains at most the last 12 non-system messages (a suffix of
the history, by role), embeds at most one image; an older message whose
images were all elided keeps its text parts when it has any and is replaced
by the short placeholder marker only when it would otherwise be empty. -/
theorem c8_outbound_trimming (msgs : List MMsg) :
    (∀ m rest, msgs = m :: rest → m.role = "system" →
      ∃ tail, prepareMessagesForSend 12 1 msgs = m :: tail ∧
        tail.length ≤ 12 ∧ imageCount tail ≤ 1 ∧
        (tail.map MMsg.role) <:+ (rest.map MMsg.role)) ∧
    ((∀ m rest, msgs = m :: rest → ¬ m.role = "system") →
      (prepareMessagesForSend 12 1 msgs).length ≤ 12 ∧
      imageCount (prepareMessagesForSend 12 1 msgs) ≤ 1 ∧
      ((prepareMessagesForSend 12 1 msgs).map MMsg.role) <:+ (msgs.map MMsg.role)) ∧
    (∀ b parts, parts.filter isImagePart ≠ [] →
      (trimContent b parts).1.filter isImagePart = [] →
      (trimContent b parts).1 =
        (if parts.filter isTextPart ≠ [] then parts.filter isTextPart
         else [omittedMarker])) := by
  refine ⟨?_, ?_, ?_⟩
  · rintro m rest rfl hrole
    refine ⟨(trimLoop 12 rest.reverse 1 []).reverse, ?_, ?_, ?_, ?_⟩
    · simp [prepareMessagesForSend, hrole]
    · have := trimLoop_length 12 rest.reverse 1 [] (by simp)
      simpa using this
    · have := trimLoop_images 12 rest.reverse 1 []
      simp only [imageCount, List.map_reverse, List.sum_reverse] at *
      simpa [imageCount] using this
    · obtain ⟨k, hk⟩ := trimLoop_roles 12 rest.reverse 1 []
      have : (trimLoop 12 rest.reverse 1 []).reverse.map MMsg.role =
          ((rest.map MMsg.role).reverse.take k).reverse := by
        rw [List.map_reverse, hk]
        simp [List.map_reverse]
      rw [this]
      exact reverse_take_reverse_suffix _ k
  · intro hnosys
    cases msgs with
    | nil => simp [prepareMessagesForSend, imageCount]
    | cons m rest =>
      have hrole : ¬ m.role = "system" := hnosys m rest rfl
      have hprep : prepareMessagesForSend 12 1 (m :: rest) =
          (trimLoop 12 (m :: rest).reverse 1 []).reverse := by
        simp [prepareMessagesForSend, hrole]
      refine ⟨?_, ?_, ?_⟩
      · rw [hprep]
        have := trimLoop_length 12 (m :: rest).reverse 1 [] (by simp)
        simpa using this
      · rw [hprep]
        have := trimLoop_images 12 (m :: rest).reverse 1 []
        simp only [imageCount, List.map_reverse, List.sum_reverse] at *
        simpa [imageCount] using this
      · rw [hprep]
        obtain ⟨k, hk⟩ := trimLoop_roles 12 (m :: rest).reverse 1 []
        have : (trimLoop 12 (m :: rest).reverse 1 []).reverse.map MMsg.role =
            (((m :: rest).map MMsg.role).reverse.take k).reverse := by
          rw [List.map_reverse, hk]
          simp [List.map_reverse]
        rw [this]
        exact reverse_take_reverse_suffix _ k
  · intro b parts hips hout
    unfold trimContent at hout ⊢
    by_cases h1 : parts.filter isImagePart ≠ [] ∧ 0 < b
    · rw [if_pos h1] at hout
      exfalso
      have himg : ∀ a ∈ (parts.filter isImagePart).take 1, isImagePart a = true :=
        fun a ha => (List.mem_filter.mp (List.mem_of_mem_take ha)).2
      rw [List.filter_append, filter_isText_no_image, List.nil_append,
        List.filter_eq_self.mpr himg] at hout
      have := List.length_pos.mpr hips
      have : ((parts.filter isImagePart).take 1).length = 1 := by
        rw [List.length_take]; omega
      rw [hout] at this
      simp at this
    · rw [if_neg h1]
      rw [if_neg h1] at hout
      by_cases h2 : parts.filter isTextPart ≠ []
      · rw [if_pos h2, if_pos h2]
      · rw [if_neg h2, if_neg h2, if_pos hips]

/-- Counterexample to C8 as stated: in this history the older user message
carries both text and an image; its image is elided but no placeholder
marker is inserted — the message is sent with its text only. -/
theorem c8_counterexample_no_placeholder :
    prepareMessagesForSend 12 1
        [⟨"user", [.mtext "hi", .mimage "A"]⟩, ⟨"user", [.mimage "B"]⟩] =
      [⟨"user", [.mtext "hi"]⟩, ⟨"user", [.mimage "B"]⟩] ∧
    ([MPart.mtext "hi", MPart.mimage "A"].filter isImagePart ≠ []) ∧
    ([MPart.mtext "hi"].filter isImagePart = []) ∧
    omittedMarker ∉ [MPart.mtext "hi"] := by
  refine ⟨by decide, by decide, by decide, by decide⟩

/-- Witness for C8 at a concrete history with a system prompt, an older
text+image turn and a newer image-only turn. -/
theorem c8_outbound_trimming_witness :
    (∃ tail, prepareMessagesForSend 12 1
        [⟨"system", [.mtext "sys"]⟩, ⟨"user", [.mtext "hi", .mimage "A"]⟩,
         ⟨"user", [.mimage "B"]⟩] = ⟨"system", [.mtext "sys"]⟩ :: tail ∧
      tail.length ≤ 12 ∧ imageCount tail ≤ 1 ∧
      (tail.map MMsg.role) <:+
        ([⟨"user", [.mtext "hi", .mimage "A"]⟩, ⟨"user", [.mimage "B"]⟩] :
          List MMsg).map MMsg.role) ∧
    (trimContent 0 [.mtext "hi", .mimage "A"]).1 =
      (if ([MPart.mtext "hi", MPart.mimage "A"].filter isTextPart) ≠ []
       then [MPart.mtext "hi", MPart.mimage "A"].filter isTextPart
       else [omittedMarker]) := by
  have h := c8_outbound_trimming
    [⟨"system", [.mtext "sys"]⟩, ⟨"user", [.mtext "hi", .mimage "A"]⟩,
     ⟨"user", [.mimage "B"]⟩]
  refine ⟨h.1 _ _ rfl rfl, ?_⟩
  exact h.2.2 0 [.mtext "hi", .mimage "A"] (by decide) (by decide)

/-! ### C6 helper lemma: the line loop under command-free blocks -/

theorem runLines_spec (cfg : ParserCfg) :
    ∀ (ls : List String) (st : PRState),
      (∀ l ∈ ls, actionLineSafe l = true) →
      (∀ b ∈ collectBlocks ls st.insideToolCall st.currentToolCall,
          process_tool_call cfg b = Except.ok []) →
      ∃ st2, runLines cfg ls st = .ok st2 ∧ st2.code = st.code ∧
        (st2.currentToolCall ≠ [] →
          process_tool_call cfg (joinNl st2.currentToolCall) = .ok []) ∧
        (st.low ≠ "" → st2.low = st.low) := by
  intro ls
  induction ls with
  | nil =>
    intro st hsafe hb
    refine ⟨st, rfl, rfl, ?_, fun _ => rfl⟩
    intro hcur
    apply hb
    simp [collectBlocks, hcur]
  | cons l ls ih =>
    intro st hsafe hb
    have hsafe_tail : ∀ x ∈ ls, actionLineSafe x = true :=
      fun x hx => hsafe x (by simp [hx])
    have hsafe_head : actionLineSafe l = true := hsafe l (by simp)
    by_cases hempty : pyStrip l = ""
    · have hstep : runLines cfg (l :: ls) st = runLines cfg ls st := by
        simp [runLines, lineStep, hempty]
      have hcol : collectBlocks (l :: ls) st.insideToolCall st.currentToolCall =
          collectBlocks ls st.insideToolCall st.currentToolCall := by
        simp [collectBlocks, hempty]
      rw [hstep]
      exact ih st hsafe_tail (hcol ▸ hb)
    · by_cases hact : pyStartsWith (pyLower (pyStrip l)) "action:" = true
      · have hcol : collectBlocks (l :: ls) st.insideToolCall st.currentToolCall =
            collectBlocks ls st.insideToolCall st.currentToolCall := by
          simp [collectBlocks, hempty, hact]
        by_cases hlow : st.low = ""
        · have hsplit : (strSplitFirst (pyStrip l) "Action:").isSome = true := by
            unfold actionLineSafe at hsafe_head
            rcases (Bool.or_eq_true _ _).mp hsafe_head with h | h
            · rw [hact] at h; simp at h
            · exact h
          obtain ⟨pr, hpr⟩ := Option.isSome_iff_exists.mp hsplit
          have hstep : runLines cfg (l :: ls) st = runLines cfg ls
              { st with low :=
                  if cutMarkers (pyStrip pr.2) = "" then st.low
                  else cutMarkers (pyStrip pr.2) } := by
            simp [runLines, lineStep, hempty, hact, hlow, hpr]
          rw [hstep]
          obtain ⟨st2, h1, h2, h3, _⟩ := ih
            { st with low :=
                if cutMarkers (pyStrip pr.2) = "" then st.low
                else cutMarkers (pyStrip pr.2) }
            hsafe_tail (hcol ▸ hb)
          exact ⟨st2, h1, h2, h3, fun hne => absurd hlow hne⟩
        · have hstep : runLines cfg (l :: ls) st = runLines cfg ls st := by
            simp [runLines, lineStep, hempty, hact, hlow]
          rw [hstep]
          exact ih st hsafe_tail (hcol ▸ hb)
      · by_cases hopen : pyStartsWith (pyStrip l) "<tool_call>" = true
        · have hstep : runLines cfg (l :: ls) st =
              runLines cfg ls { st with insideToolCall := true } := by
            simp [runLines, lineStep, hempty, hact, hopen]
          have hcol : collectBlocks (l :: ls) st.insideToolCall st.currentToolCall =
              collectBlocks ls true st.currentToolCall := by
            simp [collectBlocks, hempty, hact, hopen]
          rw [hstep]
          exact ih _ hsafe_tail (hcol ▸ hb)
        · by_cases hclose : pyStartsWith (pyStrip l) "</tool_call>" = true
          · by_cases hcur : st.currentToolCall = []
            · have hstep : runLines cfg (l :: ls) st =
                  runLines cfg ls { st with insideToolCall := false } := by
                simp [runLines, lineStep, hempty, hact, hopen, hclose, hcur]
              have hcol : collectBlocks (l :: ls) st.insideToolCall st.currentToolCall =
                  collectBlocks ls false st.currentToolCall := by
                simp [collectBlocks, hempty, hact, hopen, hclose, hcur]
              rw [hstep]
              exact ih _ hsafe_tail (hcol ▸ hb)
            · have hcol : collectBlocks (l :: ls) st.insideToolCall st.currentToolCall =
                  joinNl st.currentToolCall :: collectBlocks ls false [] := by
                simp [collectBlocks, hempty, hact, hopen, hclose, hcur]
              have hhead : process_tool_call cfg (joinNl st.currentToolCall) = .ok [] :=
                hb _ (by rw [hcol]; simp)
              have hstep : runLines cfg (l :: ls) st = runLines cfg ls
                  { st with currentToolCall := [], insideToolCall := false } := by
                simp [runLines, lineStep, hempty, hact, hopen, hclose, hcur, hhead,
                  Except.map]
              rw [hstep]
              exact ih { st with currentToolCall := [], insideToolCall := false }
                hsafe_tail
                (fun b hbm => hb b (by rw [hcol]; exact List.mem_cons_of_mem _ hbm))
          · by_cases hinside : st.insideToolCall = true
            · have hstep : runLines cfg (l :: ls) st = runLines cfg ls
                  { st with currentToolCall := st.currentToolCall ++ [pyStrip l] } := by
                simp [runLines, lineStep, hempty, hact, hopen, hclose, hinside]
              have hcol : collectBlocks (l :: ls) st.insideToolCall st.currentToolCall =
                  collectBlocks ls st.insideToolCall
                    (st.currentToolCall ++ [pyStrip l]) := by
                simp [collectBlocks, hempty, hact, hopen, hclose, hinside]
              rw [hstep]
              exact ih _ hsafe_tail (hcol ▸ hb)
            · have hskip : ∀ (hstep : runLines cfg (l :: ls) st = runLines cfg ls st)
                  (hcol : collectBlocks (l :: ls) st.insideToolCall st.currentToolCall =
                    collectBlocks ls st.insideToolCall st.currentToolCall),
                  ∃ st2, runLines cfg (l :: ls) st = .ok st2 ∧ st2.code = st.code ∧
                    (st2.currentToolCall ≠ [] →
                      process_tool_call cfg (joinNl st2.currentToolCall) = .ok []) ∧
                    (st.low ≠ "" → st2.low = st.low) := by
                intro hstep hcol
                rw [hstep]
                exact ih st hsafe_tail (hcol ▸ hb)
              by_cases hjson : pyStartsWith (pyStrip l) lcurl = true ∧
                  pyEndsWith (pyStrip l) rcurl = true
              · cases hp : jsonParse (pyStrip l) with
                | none =>
                  refine hskip ?_ ?_
                  · simp [runLines, lineStep, hempty, hact, hopen, hclose, hinside,
                      hjson.1, hjson.2, hp]
                  · simp [collectBlocks, hempty, hact, hopen, hclose, hinside,
                      hjson.1, hjson.2, hp]
                | some v =>
                  cases v with
                  | jobj fs =>
                    by_cases hnm : hasField fs "name" = true ∧
                        hasField fs "arguments" = true
                    · have hcol : collectBlocks (l :: ls) st.insideToolCall
                          st.currentToolCall =
                          pyStrip l ::
                            collectBlocks ls st.insideToolCall st.currentToolCall := by
                        simp [collectBlocks, hempty, hact, hopen, hclose, hinside,
                          hjson.1, hjson.2, hp, hnm.1, hnm.2]
                      have hhead : process_tool_call cfg (pyStrip l) = .ok [] :=
                        hb _ (by rw [hcol]; simp)
                      have hstep : runLines cfg (l :: ls) st = runLines cfg ls st := by
                        cases st with
                        | mk lo co ins cu =>
                          have hin2 : ins = false := by simpa using hinside
                          subst hin2
                          simp [runLines, lineStep, hempty, hact, hopen, hclose,
                            hjson.1, hjson.2, hp, hnm.1, hnm.2, hhead, Except.map]
                      rw [hstep]
                      exact ih st hsafe_tail
                        (fun b hbm =>
                          hb b (by rw [hcol]; exact List.mem_cons_of_mem _ hbm))
                    · refine hskip ?_ ?_
                      · simp [runLines, lineStep, hempty, hact, hopen, hclose,
                          hinside, hjson.1, hjson.2, hp, hnm]
                      · simp [collectBlocks, hempty, hact, hopen, hclose, hinside,
                          hjson.1, hjson.2, hp, hnm]
                  | jnull =>
                    refine hskip ?_ ?_
                    · simp [runLines, lineStep, hempty, hact, hopen, hclose, hinside,
                        hjson.1, hjson.2, hp]
                    · simp [collectBlocks, hempty, hact, hopen, hclose, hinside,
                        hjson.1, hjson.2, hp]
                  | jbool b0 =>
                    refine hskip ?_ ?_
                    · simp [runLines, lineStep, hempty, hact, hopen, hclose, hinside,
                        hjson.1, hjson.2, hp]
                    · simp [collectBlocks, hempty, hact, hopen, hclose, hinside,
                        hjson.1, hjson.2, hp]
                  | jint n0 =>
                    refine hskip ?_ ?_
                    · simp [runLines, lineStep, hempty, hact, hopen, hclose, hinside,
                        hjson.1, hjson.2, hp]
                    · simp [collectBlocks, hempty, hact, hopen, hclose, hinside,
                        hjson.1, hjson.2, hp]
                  | jfloat q0 =>
                    refine hskip ?_ ?_
                    · simp [runLines, lineStep, hempty, hact, hopen, hclose, hinside,
                        hjson.1, hjson.2, hp]
                    · simp [collectBlocks, hempty, hact, hopen, hclose, hinside,
                        hjson.1, hjson.2, hp]
                  | jstr s0 =>
                    refine hskip ?_ ?_
                    · simp [runLines, lineStep, hempty, hact, hopen, hclose, hinside,
                        hjson.1, hjson.2, hp]
                    · simp [collectBlocks, hempty, hact, hopen, hclose, hinside,
                        hjson.1, hjson.2, hp]
                  | jarr xs0 =>
                    refine hskip ?_ ?_
                    · simp [runLines, lineStep, hempty, hact, hopen, hclose, hinside,
                        hjson.1, hjson.2, hp]
                    · simp [collectBlocks, hempty, hact, hopen, hclose, hinside,
                        hjson.1, hjson.2, hp]
              · refine hskip ?_ ?_
                · simp [runLines, lineStep, hempty, hact, hopen, hclose, hinside,
                    hjson]
                · simp [collectBlocks, hempty, hact, hopen, hclose, hinside, hjson]

theorem dispatch_unsupported (cfg : ParserCfg) (args : List (String × JVal))
    (h : resolved_action args ∉ supportedActions) : dispatch cfg args = .ok [] := by
  simp only [supportedActions, List.mem_cons, List.not_mem_nil, or_false] at h
  push_neg at h
  obtain ⟨h1, h2, h3, h4, h5, h6, h7, h8, h9, h10, h11⟩ := h
  simp [dispatch, h1, h2, h3, h4, h5, h6, h7, h8, h9, h10, h11]

theorem process_tool_call_unsupported (cfg : ParserCfg) (b : String)
    (fields args : List (String × JVal))
    (hc : coerce_json b = some (.jobj fields))
    (ha : toolCallArgs fields = some (.jobj args))
    (h : resolved_action args ∉ supportedActions) :
    process_tool_call cfg b = .ok [] := by
  simp [process_tool_call, hc, ha, dispatch_unsupported cfg args h]

/-- C6 (amended): a tool-call block whose resolved action name lies outside
the supported set compiles to no command and raises nothing; and for a
response all of whose collected blocks compile to no commands, and whose
lines avoid the `Action:`-case-mismatch `IndexError` defect, `parse_response`
returns without raising, with zero commands, and with the summary equal to
the `Action:`-line text whenever that text is non-empty (the summary is
empty when the response has no usable `Action:` line). -/
theorem c6_unsupported_actions_drop (cfg : ParserCfg) (r : String)
    (hr : pyStrip r ≠ "")
    (hsafe : ∀ l ∈ linesOfResponse r, actionLineSafe l = true)
    (hb : ∀ b ∈ collectBlocks (linesOfResponse r) false [],
        process_tool_call cfg b = .ok []) :
    (∃ low, parse_response cfg (some r) = .ok (low, []) ∧
        (regexActionText r ≠ "" → low = regexActionText r)) ∧
    (∀ args, resolved_action args ∉ supportedActions →
        dispatch cfg args = .ok []) ∧
    (∀ b fields args, coerce_json b = some (.jobj fields) →
        toolCallArgs fields = some (.jobj args) →
        resolved_action args ∉ supportedActions →
        process_tool_call cfg b = .ok []) := by
  refine ⟨?_, fun args h => dispatch_unsupported cfg args h,
    fun b fields args hc ha h =>
      process_tool_call_unsupported cfg b fields args hc ha h⟩
  obtain ⟨st2, h1, h2, h3, h4⟩ := runLines_spec cfg (linesOfResponse r)
    { low := regexActionText r, code := [], insideToolCall := false,
      currentToolCall := [] } hsafe hb
  refine ⟨st2.low, ?_, fun hreg => h4 hreg⟩
  simp only [parse_response]
  rw [if_neg hr, h1]
  by_cases hcur2 : st2.currentToolCall = []
  · simp [hcur2, h2]
  · simp [hcur2, h3 hcur2, h2]

/-- Counterexample refuting C6 as stated: a response consisting solely of a
tool-call block with the unsupported action `fly` compiles to zero commands
but its summary is the empty string, not a non-empty `Action:`-line text. -/
theorem c6_counterexample_empty_summary :
    parse_response ⟨"relative", some 1512, some 982, some 756, some 491⟩
        (some ("<tool_call>" ++ "\n" ++ lcurl ++ "\"action\": \"fly\"" ++ rcurl ++
               "\n" ++ "</tool_call>")) = .ok ("", []) := by
  decide

/-- Witness for C6 at a concrete response carrying an `Action:` line and a
single unsupported tool call. -/
theorem c6_unsupported_actions_drop_witness :
    ∃ low,
      parse_response ⟨"relative", some 1512, some 982, some 756, some 491⟩
        (some ("Action: open the browser" ++ "\n" ++ "<tool_call>" ++ "\n" ++
               lcurl ++ "\"action\": \"fly_to\"" ++ rcurl ++ "\n" ++
               "</tool_call>")) = .ok (low, []) ∧
      (regexActionText ("Action: open the browser" ++ "\n" ++ "<tool_call>" ++
          "\n" ++ lcurl ++ "\"action\": \"fly_to\"" ++ rcurl ++ "\n" ++
          "</tool_call>") ≠ "" →
        low = regexActionText ("Action: open the browser" ++ "\n" ++
          "<tool_call>" ++ "\n" ++ lcurl ++ "\"action\": \"fly_to\"" ++ rcurl ++
          "\n" ++ "</tool_call>")) :=
  (c6_unsupported_actions_drop ⟨"relative", some 1512, some 982, some 756, some 491⟩
    ("Action: open the browser" ++ "\n" ++ "<tool_call>" ++ "\n" ++ lcurl ++
     "\"action\": \"fly_to\"" ++ rcurl ++ "\n" ++ "</tool_call>")
    (by decide) (by decide) (by decide)).1

end YoutuTip

